import Mathlib

/-!
Verification of the Agent Control Loop of the manus-like-agent repository.

The definitions below are a shallow embedding of `core/agent.py`,
`tools/tool_registry.py` and `core/memory.py`.  External collaborators
(the model backend, the registered capabilities, the wall clock) are
modelled as oracles carried by a `World` structure; everything the agent
core itself computes (string processing, JSON extraction, the loop state
machine) is translated directly from the source.
-/

set_option autoImplicit false

namespace ManusAgent

/-- Whitespace class of Python `re` module patterns (`\s`), ASCII range; the
source only ever feeds it ASCII or Japanese text, for which this matches. -/
def isPySpace (c : Char) : Bool :=
  c = ' ' || c = '\t' || c = '\n' || c = '\r' || c = Char.ofNat 11 || c = Char.ofNat 12

/-- Whitespace skipped by Python `json.loads` between tokens. -/
def isJsonWs (c : Char) : Bool :=
  c = ' ' || c = '\t' || c = '\n' || c = '\r'

/-- Strip an explicit prefix, returning the remainder on success. -/
def dropPre : List Char → List Char → Option (List Char)
  | [], cs => some cs
  | _ :: _, [] => none
  | p :: ps, c :: cs => if p = c then dropPre ps cs else none

/-- Python's substring operator `needle in hay` on strings. -/
def containsSub : List Char → List Char → Bool
  | needle, [] => needle.isEmpty
  | needle, c :: rest => (dropPre needle (c :: rest)).isSome || containsSub needle rest

/-- Python `str.startswith`. -/
def pyStartsWith (pre s : String) : Bool := (dropPre pre.data s.data).isSome

/-- Split on a separator character, keeping empty segments — Python
`str.split(sep)` for a one-character separator. -/
def splitOnCh (sep : Char) : List Char → List (List Char)
  | [] => [[]]
  | c :: rest =>
    match splitOnCh sep rest with
    | [] => [[]]
    | h :: t => if c = sep then [] :: h :: t else (c :: h) :: t

/-- Python `s.split("\n")`. -/
def pySplitLines (s : String) : List String := (splitOnCh '\n' s.data).map String.mk

/-- Python `sep.join(xs)`. -/
def joinWith (sep : String) : List String → String
  | [] => ""
  | [x] => x
  | x :: y :: xs => x ++ sep ++ joinWith sep (y :: xs)

/-- JSON values as produced by `json.loads`.  Numbers keep their source
lexeme: the agent core never computes with them. -/
inductive Json where
  | null : Json
  | bool (b : Bool) : Json
  | num (lit : String) : Json
  | str (s : String) : Json
  | arr (elems : List Json) : Json
  | obj (fields : List (String × Json)) : Json

def hexVal (c : Char) : Option Nat :=
  if '0' ≤ c ∧ c ≤ '9' then some (c.toNat - 48)
  else if 'a' ≤ c ∧ c ≤ 'f' then some (c.toNat - 87)
  else if 'A' ≤ c ∧ c ≤ 'F' then some (c.toNat - 55)
  else none

def isDigitCh (c : Char) : Bool := '0' ≤ c && c ≤ '9'

/-- Body of a JSON string literal (the opening quote already consumed).
`json.loads` rejects raw control characters and unknown escapes. -/
def parseStringBody (fuel : Nat) (cs : List Char) (acc : List Char) :
    Option (String × List Char) :=
  match fuel, cs with
  | 0, _ => none
  | _, [] => none
  | Nat.succ f, c :: rest =>
    if c = '"' then some (String.mk acc.reverse, rest)
    else if c = '\\' then
      match rest with
      | [] => none
      | e :: rest2 =>
        if e = '"' then parseStringBody f rest2 ('"' :: acc)
        else if e = '\\' then parseStringBody f rest2 ('\\' :: acc)
        else if e = '/' then parseStringBody f rest2 ('/' :: acc)
        else if e = 'b' then parseStringBody f rest2 (Char.ofNat 8 :: acc)
        else if e = 'f' then parseStringBody f rest2 (Char.ofNat 12 :: acc)
        else if e = 'n' then parseStringBody f rest2 ('\n' :: acc)
        else if e = 'r' then parseStringBody f rest2 ('\r' :: acc)
        else if e = 't' then parseStringBody f rest2 ('\t' :: acc)
        else if e = 'u' then
          match rest2 with
          | h1 :: h2 :: h3 :: h4 :: rest3 =>
            match hexVal h1, hexVal h2, hexVal h3, hexVal h4 with
            | some a, some b, some c2, some d =>
              parseStringBody f rest3 (Char.ofNat (((a * 16 + b) * 16 + c2) * 16 + d) :: acc)
            | _, _, _, _ => none
          | _ => none
        else none
    else if c.toNat < 32 then none
    else parseStringBody f rest (c :: acc)

/-- JSON number lexeme: `-?(0|[1-9]\d*)(\.\d+)?([eE][-+]?\d+)?`, exactly the
`NUMBER_RE` used by Python's json decoder (the lexeme is kept, unevaluated). -/
def parseNumber (cs : List Char) : Option (String × List Char) :=
  let (neg, cs1) : List Char × List Char :=
    match cs with
    | '-' :: r => (['-'], r)
    | _ => ([], cs)
  let intPart : Option (List Char × List Char) :=
    match cs1 with
    | '0' :: r => some (['0'], r)
    | _ =>
      let ds := cs1.takeWhile isDigitCh
      if ds = [] then none else some (ds, cs1.dropWhile isDigitCh)
  match intPart with
  | none => none
  | some (ip, r1) =>
    let (fp, r2) : List Char × List Char :=
      match r1 with
      | '.' :: rr =>
        let ds := rr.takeWhile isDigitCh
        if ds = [] then ([], r1) else ('.' :: ds, rr.dropWhile isDigitCh)
      | _ => ([], r1)
    let (ep, r3) : List Char × List Char :=
      match r2 with
      | e :: rr =>
        if e = 'e' ∨ e = 'E' then
          let (sgn, rr2) : List Char × List Char :=
            match rr with
            | '+' :: q => (['+'], q)
            | '-' :: q => (['-'], q)
            | _ => ([], rr)
          let ds := rr2.takeWhile isDigitCh
          if ds = [] then ([], r2) else (e :: (sgn ++ ds), rr2.dropWhile isDigitCh)
        else ([], r2)
      | _ => ([], r2)
    some (String.mk (neg ++ ip ++ fp ++ ep), r3)

mutual

/-- One JSON value, leading whitespace allowed (model of Python json scanner). -/
def parseValue (fuel : Nat) (cs : List Char) : Option (Json × List Char) :=
  match fuel with
  | 0 => none
  | Nat.succ f =>
    let cs1 := cs.dropWhile isJsonWs
    match cs1 with
    | [] => none
    | c :: rest =>
      if c = '"' then
        match parseStringBody f rest [] with
        | none => none
        | some (s, r) => some (Json.str s, r)
      else if c = '{' then parseObjTail f rest
      else if c = '[' then parseArrTail f rest
      else if c = 't' then
        match dropPre "rue".data rest with
        | some r => some (Json.bool true, r)
        | none => none
      else if c = 'f' then
        match dropPre "alse".data rest with
        | some r => some (Json.bool false, r)
        | none => none
      else if c = 'n' then
        match dropPre "ull".data rest with
        | some r => some (Json.null, r)
        | none => none
      else if c = 'N' then
        match dropPre "aN".data rest with
        | some r => some (Json.num "NaN", r)
        | none => none
      else if c = 'I' then
        match dropPre "nfinity".data rest with
        | some r => some (Json.num "Infinity", r)
        | none => none
      else if c = '-' ∧ (dropPre "-Infinity".data cs1).isSome then
        match dropPre "-Infinity".data cs1 with
        | some r => some (Json.num "-Infinity", r)
        | none => none
      else if c = '-' ∨ isDigitCh c then
        match parseNumber cs1 with
        | none => none
        | some (lit, r) => some (Json.num lit, r)
      else none

/-- Object body after the opening brace. -/
def parseObjTail (fuel : Nat) (cs : List Char) : Option (Json × List Char) :=
  match fuel with
  | 0 => none
  | Nat.succ f =>
    let cs1 := cs.dropWhile isJsonWs
    match cs1 with
    | '}' :: rest => some (Json.obj [], rest)
    | _ => parseMembers f cs1 []

def parseMembers (fuel : Nat) (cs : List Char) (acc : List (String × Json)) :
    Option (Json × List Char) :=
  match fuel with
  | 0 => none
  | Nat.succ f =>
    let cs1 := cs.dropWhile isJsonWs
    match cs1 with
    | '"' :: rest =>
      match parseStringBody f rest [] with
      | none => none
      | some (k, r1) =>
        match r1.dropWhile isJsonWs with
        | ':' :: r3 =>
          match parseValue f r3 with
          | none => none
          | some (v, r4) =>
            match r4.dropWhile isJsonWs with
            | ',' :: r6 => parseMembers f r6 (acc ++ [(k, v)])
            | '}' :: r6 => some (Json.obj (acc ++ [(k, v)]), r6)
            | _ => none
        | _ => none
    | _ => none

/-- Array body after the opening bracket. -/
def parseArrTail (fuel : Nat) (cs : List Char) : Option (Json × List Char) :=
  match fuel with
  | 0 => none
  | Nat.succ f =>
    let cs1 := cs.dropWhile isJsonWs
    match cs1 with
    | ']' :: rest => some (Json.arr [], rest)
    | _ => parseElems f cs1 []

def parseElems (fuel : Nat) (cs : List Char) (acc : List Json) :
    Option (Json × List Char) :=
  match fuel with
  | 0 => none
  | Nat.succ f =>
    match parseValue f cs with
    | none => none
    | some (v, r1) =>
      match r1.dropWhile isJsonWs with
      | ',' :: r3 => parseElems f r3 (acc ++ [v])
      | ']' :: r3 => some (Json.arr (acc ++ [v]), r3)
      | _ => none

end

/-- Model of `json.loads`: parse one value and require only whitespace after
it, otherwise the call raises (here: `none`).  The fuel is ample: every
recursive call either consumes input or is one of boundedly many steps per
consumed character. -/
def jsonParse (s : String) : Option Json :=
  match parseValue (s.length + 16) s.data with
  | none => none
  | some (v, rest) => if rest.dropWhile isJsonWs = [] then some v else none

/-- Python `dict` lookup on a parsed object: later duplicate keys override
earlier ones, so the last binding wins. -/
def Json.getField (j : Json) (k : String) : Option Json :=
  match j with
  | .obj fields => fields.foldl (fun acc f => if f.1 = k then some f.2 else acc) none
  | _ => none

/-- `"name" in data` for the parsed value (membership test of `dict`/`list`,
substring test of `str`; other types raise `TypeError`, reported as `none`).
The extraction regexes only ever hand `json.loads` text beginning with a
brace, so in the agent only the `obj` case is reachable. -/
def jsonHasNameKey (j : Json) : Option Bool :=
  match j with
  | .obj fields => some (fields.any (fun f => f.1 = "name"))
  | .str s => some (containsSub "name".data s.data)
  | .arr _ => some false
  | _ => none

/-! ### The two regular-expression searches of `Agent._extract_tool_call` -/

/-- Does `\s*` followed by the literal ```` ``` ```` match here?  (After the
closing brace of the group the pattern requires optional whitespace and then
three backticks; since a backtick is not whitespace the greedy `\s*` simply
swallows the maximal whitespace run.) -/
def fenceClose (cs : List Char) : Bool :=
  (dropPre "```".data (cs.dropWhile isPySpace)).isSome

/-- The non-greedy `.*?` of `\{.*?\}\s*` ``` : the group body extends to the
first closing brace from which the tail of the pattern matches. -/
def fenceGroup : List Char → List Char → Option (List Char)
  | [], _ => none
  | c :: rest, acc =>
    if c = '}' ∧ fenceClose rest then some (acc.reverse ++ ['}'])
    else fenceGroup rest (c :: acc)

/-- Try to match ```` ```json\s*(\{.*?\})\s*``` ```` anchored at this
position. -/
def fenceTryAt (cs : List Char) : Option (List Char) :=
  match dropPre "```json".data cs with
  | none => none
  | some rest =>
    match rest.dropWhile isPySpace with
    | '{' :: body =>
      match fenceGroup body [] with
      | some g => some ('{' :: g)
      | none => none
    | _ => none

/-- `re.search` semantics for the fenced pattern: leftmost starting position
at which the whole pattern matches. -/
def scanFence : List Char → Option (List Char)
  | [] => none
  | c :: rest =>
    match fenceTryAt (c :: rest) with
    | some g => some g
    | none => scanFence rest

/-- Truncate after the last `}`, if one exists (the greedy `.*` of the
fallback pattern `(\{.*\})` with `re.DOTALL`). -/
def lastCloseSplit (cs : List Char) : Option (List Char) :=
  match cs.reverse.dropWhile (fun c => c ≠ '}') with
  | [] => none
  | dropped => some dropped.reverse

/-- `re.search(r"(\{.*\})", s, re.DOTALL)`: earliest opening brace that is
followed by some closing brace; the group runs to the last closing brace. -/
def bareTry : List Char → Option (List Char)
  | [] => none
  | c :: rest =>
    if c = '{' then
      match lastCloseSplit rest with
      | some t => some ('{' :: t)
      | none => bareTry rest
    else bareTry rest

/-- The `try` block of `_extract_tool_call` (agent.py:455-461):
`json.loads(raw_json)` followed by the `"name" not in data` test; any
exception yields `None`. -/
def parseAndCheck (raw : String) : Option Json :=
  match jsonParse raw with
  | none => none
  | some data =>
    match jsonHasNameKey data with
    | some true => some data
    | _ => none

/-- `Agent._extract_tool_call` (agent.py:431-461): fenced ```` ```json ````
block first, bare `{...}` fallback, then `json.loads` and the `"name"`
membership test; any failure yields `None`. -/
def extract_tool_call (llm_response : String) : Option Json :=
  let raw_json : Option String :=
    match scanFence llm_response.data with
    | some g => some (String.mk g)
    | none =>
      match bareTry llm_response.data with
      | some g => some (String.mk g)
      | none => none
  match raw_json with
  | none => none
  | some raw => parseAndCheck raw

/-! ### Rendering (Python str()/f-string of parsed values)

Only used to build text handed to external oracles (notification texts and
the summarization prompt), never inspected by the agent core itself. -/

mutual

def jsonToStr : Json → String
  | .null => "None"
  | .bool true => "True"
  | .bool false => "False"
  | .num l => l
  | .str s => s
  | .arr xs => "[" ++ joinWith ", " (jsonToStrList xs) ++ "]"
  | .obj fs => "\x7b" ++ joinWith ", " (jsonToStrFields fs) ++ "\x7d"

def jsonToStrList : List Json → List String
  | [] => []
  | x :: xs => jsonToStr x :: jsonToStrList xs

def jsonToStrFields : List (String × Json) → List String
  | [] => []
  | (k, v) :: xs => (k ++ ": " ++ jsonToStr v) :: jsonToStrFields xs

end

/-! ### The checklist synchronizer: `Agent._create_todo_from_plan` -/

/-- `re.match(r'(\d+)\.\s+(.*)', line)`: a maximal digit run at the start of
the line, a literal dot, at least one whitespace character, then the rest of
the line. -/
def matchNumbered (line : String) : Option (String × String) :=
  let cs := line.data
  let ds := cs.takeWhile isDigitCh
  if ds = [] then none
  else
    match cs.dropWhile isDigitCh with
    | '.' :: rest =>
      if (rest.takeWhile isPySpace) = [] then none
      else some (String.mk ds, String.mk (rest.dropWhile isPySpace))
    | _ => none

/-- Python `str.strip()` (whitespace at both ends). -/
def pyStrip (s : String) : String :=
  String.mk (((s.data.dropWhile isPySpace).reverse.dropWhile isPySpace).reverse)

/-- First pass of `_create_todo_from_plan`: numbered-list lines. -/
def numberedSteps (lines : List String) : List String :=
  lines.filterMap (fun line =>
    match matchNumbered line with
    | some (num, text) => some ("- [ ] " ++ num ++ ". " ++ text)
    | none => none)

/-- Fallback pass: every non-empty line not starting with `目標:` or `#`. -/
def fallbackSteps (lines : List String) : List String :=
  lines.filterMap (fun line =>
    if pyStrip line ≠ "" ∧ pyStartsWith "目標:" line = false ∧ pyStartsWith "#" line = false
    then some ("- [ ] " ++ pyStrip line) else none)

/-- The goal line copied into the checklist header. -/
def goalLineOf (lines : List String) : String :=
  match lines.find? (fun line => pyStartsWith "目標:" line) with
  | some l => l ++ "\n\n"
  | none => ""

/-- The steps `_create_todo_from_plan` extracts from a plan text. -/
def todoSteps (plan_text : String) : List String :=
  if numberedSteps (pySplitLines plan_text) = []
  then fallbackSteps (pySplitLines plan_text)
  else numberedSteps (pySplitLines plan_text)

/-- The full checklist file content written by `_create_todo_from_plan`
(agent.py:88-133): header, goal line, then the extracted steps. -/
def create_todo_content (plan_text : String) : String :=
  "# タスクToDoリスト\n\n" ++ goalLineOf (pySplitLines plan_text)
    ++ joinWith "\n" (todoSteps plan_text)

/-- The durable store the agent writes the checklist to: path ↦ content. -/
abbrev FileSystem := List (String × String)

def fsWrite (fs : FileSystem) (path content : String) : FileSystem :=
  if fs.any (fun e => e.1 = path) then
    fs.map (fun e => if e.1 = path then (path, content) else e)
  else fs ++ [(path, content)]

def fsRead (fs : FileSystem) (path : String) : Option String :=
  (fs.find? (fun e => e.1 = path)).map (fun e => e.2)

/-- `os.path.join(CONFIG["system"]["workspace_dir"], CONFIG["memory"]["todo_file"])`
with the fixed `todo_file = "todo.md"` of config.py. -/
def todo_file_path : String := "workspace/todo.md"

/-- `Agent._create_todo_from_plan`: the checklist file is (re)written
unconditionally with content derived from the plan text alone — the previous
file content is never read. -/
def create_todo_from_plan (plan_text : String) (fs : FileSystem) : FileSystem :=
  fsWrite fs todo_file_path (create_todo_content plan_text)

/-! ### Events and the context (event log)

`core/context.py` is imported by agent.py but not among the provided
sources.  Modelled from the spec: the Event Log is an append-only sequence
(`add_event` appends, `get_events` returns the events in append order,
`clear` empties it), so it is embedded as a `List Event` carried in the
agent state.  The event shapes are the dictionaries agent.py appends. -/

inductive Event where
  | Message (content : String)
  | Plan (content : String)
  | Action (tool : Json) (content : Json)
  | Observation (tool : Option Json) (content : String)
  | ObservationError (tool : Json) (error : String)
  | Summary (content : String)

/-! ### Context compaction: `Agent._summarize_context` -/

/-- One line of the summarization prompt (agent.py:235-245).  An error
`Observation` has no `content` key, so the `str(ev["content"])` in the
Observation branch raises `KeyError`; a `Summary` event matches no branch
and contributes nothing. -/
def summaryPromptLine (ev : Event) : Except String String :=
  match ev with
  | .Message c => .ok ("ユーザー: " ++ c ++ "\n")
  | .Plan c => .ok ("計画:\n" ++ String.mk (c.data.take 200) ++ "...\n")
  | .Action tool _ => .ok ("アクション: " ++ jsonToStr tool ++ "\n")
  | .Observation _ c =>
    .ok ("観察: " ++ (if 100 < c.length then String.mk (c.data.take 100) ++ "..." else c) ++ "\n")
  | .ObservationError _ _ => .error "KeyError: content"
  | .Summary _ => .ok ""

def buildSummaryPrompt (older_events : List Event) : Except String String :=
  older_events.foldlM (fun acc ev => (summaryPromptLine ev).map (fun l => acc ++ l))
    "以下のイベントシーケンスを簡潔に要約してください。要約は後続の処理のためのコンテキストとして使用されます。\n\n"

/-- `Agent._summarize_context` (agent.py:216-264) as a function of the
summarization oracle: below 10 events it returns immediately; otherwise the
last 10 events are kept, the older prefix is rendered into a prompt, the
summarization model is called, and on success the log becomes one `Summary`
followed by the kept tail.  A `.error` result models an uncaught exception:
it occurs before `context.clear()`, so the log is unmodified. -/
def summarize_context (summarizeLLM : String → Except String String)
    (events : List Event) : Except String (List Event) :=
  if events.length < 10 then .ok events
  else
    let recent_events := events.drop (events.length - 10)
    let older_events := events.take (events.length - 10)
    match buildSummaryPrompt older_events with
    | .error e => .error e
    | .ok prompt =>
      match summarizeLLM prompt with
      | .error e => .error e
      | .ok summary => .ok (Event.Summary summary :: recent_events)

/-! ### The tool registry: `ToolRegistry.execute_tool` -/

structure Tool where
  /-- What `func(**params)` returns (`.ok`) or raises (`.error`). -/
  run : Json → Except String String
  /-- Modelled from the spec: the wall-clock duration of one invocation, in
  seconds ("a capability that sleeps longer than `timeout`").  The source
  has no notion of capability duration — `ToolRegistry.execute_tool`
  contains no timeout machinery at all — so this annotation exists only to
  state the spec's Action-Dispatcher timeout property against the code,
  which ignores it. -/
  runSeconds : Nat

structure ToolRegistry where
  tools : List (String × Tool)

/-- `ToolRegistry.execute_tool` (tool_registry.py:67-71): unknown names raise
`ValueError`; otherwise the capability is invoked synchronously via
`func(**params)` (which itself raises `TypeError` when `params` is not a
mapping) and whatever it returns or raises is passed through unchanged. -/
def ToolRegistry.execute_tool (reg : ToolRegistry) (name : String) (params : Json) :
    Except String String :=
  match reg.tools.find? (fun e => e.1 = name) with
  | none => .error ("ツール " ++ name ++ " は登録されていません")
  | some e =>
    match params with
    | .obj _ => e.2.run params
    | _ => .error "TypeError: argument after ** must be a mapping"

/-- Outcome vocabulary of the specification's Action Dispatcher (§4.5). -/
inductive Outcome where
  | success (result : String)
  | errorUnknownCapability
  | errorTimeout
  | errorCapabilityFailure (message : String)

/-- Modelled from the spec: `dispatch(capability_name, arguments, timeout)`
of §4.5 — the dispatcher the specification describes, which returns
`Outcome.Error(kind=Timeout)` whenever the capability runs longer than the
bound.  Stated only so that claim C4 can be compared with the code's
`ToolRegistry.execute_tool`. -/
def dispatch_spec (reg : ToolRegistry) (name : String) (args : Json) (timeout : Nat) : Outcome :=
  match reg.tools.find? (fun e => e.1 = name) with
  | none => .errorUnknownCapability
  | some e =>
    if timeout < e.2.runSeconds then .errorTimeout
    else
      match e.2.run args with
      | .ok r => .success r
      | .error m => .errorCapabilityFailure m

/-! ### Memory (`core/memory.py`) -/

structure MemoryState where
  file_registry : List (String × String)
  savedVars : List (String × String)

def getStrParam (params : Json) (k : String) : String :=
  match params.getField k with
  | some (.str s) => s
  | _ => ""

/-- `Memory.update_from_observation` (memory.py:18-31): track `file_write`
and `file_str_replace` target paths.  (Non-string `file` values would be
stored as non-string keys in Python; only string paths occur and are
modelled.) -/
def MemoryState.update_from_observation (m : MemoryState) (tool_call : Json) : MemoryState :=
  let name : String :=
    match tool_call.getField "name" with
    | some (.str s) => s
    | _ => ""
  let params : Json := (tool_call.getField "parameters").getD (Json.obj [])
  let file_path := getStrParam params "file"
  if name = "file_write" ∧ file_path ≠ "" then
    { m with file_registry := fsWrite m.file_registry file_path "written" }
  else if name = "file_str_replace" ∧ file_path ≠ "" then
    { m with file_registry := fsWrite m.file_registry file_path "str_replaced" }
  else m

structure TodoStatus where
  present : Bool
  completed : Nat
  total : Nat

/-- Modelled from the spec: `Memory.get_todo_status` is invoked by the agent
(agent.py:297,317) but its definition is not among the provided sources.
Per the spec (§6: the exit report includes the checklist completion
fraction) it reads the checklist file and counts complete and incomplete
items. -/
def get_todo_status (fs : FileSystem) : TodoStatus :=
  match fsRead fs todo_file_path with
  | none => { present := false, completed := 0, total := 0 }
  | some content =>
    let lines := pySplitLines content
    let done := (lines.filter (fun l => pyStartsWith "- [x]" l)).length
    let pending := (lines.filter (fun l => pyStartsWith "- [ ]" l)).length
    { present := true, completed := done, total := done + pending }

/-! ### The agent: world oracles, run state, and the loop -/

/-- `CONFIG["agent_loop"]` (config.py:79-84). -/
structure Config where
  max_iterations : Nat
  max_time_seconds : Nat
  auto_summarize_threshold : Nat

/-- The external collaborators of one run.  The model backend is an oracle
indexed by the iteration count that issues the call (the prompt text only
feeds information back into the same oracle); `.error` models a raised
exception.  `planResponse` stands for `Planner.create_plan` (core/planner.py
is imported by agent.py but not among the provided sources; per the spec the
plan is produced by an external planning capability). -/
structure World where
  registry : ToolRegistry
  llmCall : Nat → Except String String
  summarizeLLM : String → Except String String
  /-- `time.time() - self.start_time` at the budget check of iteration `k`. -/
  elapsedAt : Nat → Nat
  planResponse : String
  cfg : Config

/-- A record of one `execute_tool` invocation made by the agent core.
`viaReport` marks the calls issued by `_report_progress` (the final /
progress reports of the spec). -/
structure Call where
  tool : String
  params : Json
  result : Except String String
  viaReport : Bool

/-- The run state owned by the loop controller: the event log (Context),
the running flag, iteration bookkeeping, the durable checklist store, the
memory collaborator, and the trace of capability invocations. -/
structure AgentState where
  events : List Event
  isRunning : Bool
  iterations : Nat
  lastSummaryIteration : Nat
  fs : FileSystem
  memory : MemoryState
  trace : List Call

def notifyText (text : String) : Json := Json.obj [("text", Json.str text)]

/-- Invoke a capability through the registry and record the call. -/
def callTool (w : World) (st : AgentState) (name : String) (params : Json)
    (viaReport : Bool) : Except String String × AgentState :=
  let r := w.registry.execute_tool name params
  (r, { st with trace := st.trace ++ [⟨name, params, r, viaReport⟩] })

/-- `Agent._get_llm_response` (agent.py:406-429): exceptions from the model
backend are caught and turn into the empty response. -/
def get_llm_response (w : World) (k : Nat) : String :=
  match w.llmCall k with
  | .ok r => r
  | .error _ => ""

def formatTime (elapsed : Nat) : String :=
  toString (elapsed / 60) ++ "分" ++ toString (elapsed % 60) ++ "秒"

/-- `Agent._report_progress` (agent.py:309-359): builds the report message
and sends it through the notification capability inside `try/except` (a
failing notification is only logged).  The per-file listing and the
percentage (a float format) are abridged: the message text is only ever
consumed by the external notification capability. -/
def report_progress_message (st : AgentState) (elapsed : Nat) (is_final : Bool) : String :=
  (if is_final then "タスク完了レポート" else "途中経過レポート") ++
  " (実行時間: " ++ formatTime elapsed ++ ", イテレーション: " ++
  toString st.iterations ++ "回)\n\n" ++
  (if (get_todo_status st.fs).present then
    "ToDo進捗: " ++ toString (get_todo_status st.fs).completed ++ "/" ++
      toString (get_todo_status st.fs).total ++ " タスク完了\n\n"
  else "") ++
  (if 0 < st.memory.file_registry.length then
    "作成/更新ファイル数: " ++ toString st.memory.file_registry.length ++ "件\n"
  else "")

def report_progress (w : World) (st : AgentState) (elapsed : Nat) (is_final : Bool) :
    AgentState :=
  (callTool w st "message_notify_user"
    (notifyText (report_progress_message st elapsed is_final)) true).2

def basename (p : String) : String :=
  match ((splitOnCh '/' p.data).map String.mk).getLast? with
  | some b => b
  | none => p

/-- `Agent._handle_special_tool_results` (agent.py:266-307).  The
`save_variable` value (a dict with code, truncated result and a wall-clock
timestamp) is stored as its textual payload; `Memory.save_variable` itself
is not among the provided sources. -/
def handle_special_tool_results (w : World) (st : AgentState) (tool_call : Json)
    (result : String) : AgentState :=
  let tool_name : String :=
    match tool_call.getField "name" with
    | some (.str s) => s
    | _ => ""
  let params : Json := (tool_call.getField "parameters").getD (Json.obj [])
  if tool_name = "code_execute" then
    if ¬ containsSub "エラー".data result.data then
      let payload := getStrParam params "code" ++ "|" ++ String.mk (result.data.take 500)
      let mem2 := { st.memory with
        savedVars := fsWrite st.memory.savedVars "last_successful_code" payload }
      { st with memory := mem2 }
    else st
  else if tool_name = "file_str_replace" ∧ basename (getStrParam params "file") = "todo.md" then
    if containsSub "- [ ]".data (getStrParam params "old_str").data ∧
        containsSub "- [x]".data (getStrParam params "new_str").data then
      let ts := get_todo_status st.fs
      if 0 < ts.completed ∧ ts.completed % 3 = 0 then
        (callTool w st "message_notify_user"
          (notifyText ("進捗状況: " ++ toString ts.completed ++ "/" ++ toString ts.total ++
            " タスク完了")) false).2
      else st
    else st
  else st

/-- `tool_call["name"] == "idle"`. -/
def toolCallIsIdle (tool_call : Json) : Bool :=
  match tool_call.getField "name" with
  | some (.str s) => s = "idle"
  | _ => false

/-- `tool_call.get("parameters", {}).get("reason", "タスクが完了したため")`:
raises `AttributeError` when `parameters` is present but not a dict. -/
def idleReason (tool_call : Json) : Except String String :=
  match tool_call.getField "parameters" with
  | none => .ok "タスクが完了したため"
  | some (.obj fields) =>
    match (Json.obj fields).getField "reason" with
    | some v => .ok (jsonToStr v)
    | none => .ok "タスクが完了したため"
  | some _ => .error "AttributeError: get"

/-- `tool_call["name"]` used as the registry key.  A non-string name can
never equal a registered (string) key in Python, so it is mapped to a marker
string no theorem ever registers. -/
def dispatchName (tool_call : Json) : String :=
  match tool_call.getField "name" with
  | some (.str s) => s
  | _ => "<non-string-name>"

/-- The float-formatted originals interpolate the configured limits; the
exact text is only consumed by the external notification capability. -/
def timeExceededText : String :=
  "最大実行時間を超過したため、処理を停止します。ここまでの進捗を報告します。"

def iterExceededText : String :=
  "最大イテレーション数に達したため、処理を停止します。ここまでの進捗を報告します。"

/-- Outcome of one pass through the `while` body of `_agent_loop`:
continue with the next tick, `break` out, or an uncaught exception. -/
inductive IterResult where
  | next (st : AgentState)
  | brk (st : AgentState)
  | raised (e : String)

/-- Lines 161-164 of `_agent_loop`: on cadence, run `_summarize_context`
and record the iteration of the last summary; an exception from the
summarization propagates (the call site has no `try/except`). -/
def summarizeStep (w : World) (stA : AgentState) (ic1 : Nat) : Except String AgentState :=
  if 0 < w.cfg.auto_summarize_threshold ∧
      w.cfg.auto_summarize_threshold ≤ ic1 - stA.lastSummaryIteration then
    match summarize_context w.summarizeLLM stA.events with
    | .error e => .error e
    | .ok evs => .ok { stA with events := evs, lastSummaryIteration := ic1 }
  else .ok stA

/-- The dispatch segment of the loop body (agent.py:188-204): append the
`Action` event, execute the capability inside `try/except` — a success
appends the result Observation, updates memory and runs the special-result
handling; an exception is caught and appends an error Observation. -/
def dispatchStep (w : World) (stB : AgentState) (tool_call : Json) : AgentState :=
  let nameJson := (tool_call.getField "name").getD Json.null
  let params := (tool_call.getField "parameters").getD (Json.obj [])
  let stC := { stB with events := stB.events ++ [Event.Action nameJson tool_call] }
  match callTool w stC (dispatchName tool_call) params false with
  | (.ok result, stD) =>
    let stE := { stD with events :=
      stD.events ++ [Event.Observation (some nameJson) result] }
    let stF := { stE with memory := stE.memory.update_from_observation tool_call }
    handle_special_tool_results w stF tool_call result
  | (.error e, stD) =>
    { stD with events := stD.events ++ [Event.ObservationError nameJson e] }

/-- One pass through the body of the `while` loop of `Agent._agent_loop`
(agent.py:145-204), entered with `iteration_count = ic`.

* wall-clock check: on excess, an (unguarded) notification, a progress
  report, `is_running = False`, `break`;
* increment the iteration counter;
* on cadence, `_summarize_context` — an exception there propagates;
* model call and `_extract_tool_call`; on failure append an extraction
  Observation and `continue`;
* the idle sentinel: an (unguarded) notification, a final report,
  `is_running = False`, `break`;
* otherwise append the Action event and dispatch inside `try/except`:
  a success appends the result Observation, updates memory and runs the
  special-result handling; an exception is caught and appends an error
  Observation — either way the loop continues. -/
def loopIter (w : World) (ic : Nat) (st0 : AgentState) : IterResult :=
  let elapsed := w.elapsedAt ic
  if w.cfg.max_time_seconds < elapsed then
    match callTool w st0 "message_notify_user" (notifyText timeExceededText) false with
    | (.error e, _) => .raised e
    | (.ok _, st1) =>
      let st2 := report_progress w st1 elapsed false
      .brk { st2 with isRunning := false }
  else
    let ic1 := ic + 1
    let stA := { st0 with iterations := ic1 }
    match summarizeStep w stA ic1 with
    | .error e => .raised e
    | .ok stB =>
      match extract_tool_call (get_llm_response w ic1) with
      | none =>
        .next { stB with events :=
          stB.events ++ [Event.Observation none "ツール呼び出し抽出に失敗"] }
      | some tool_call =>
        if toolCallIsIdle tool_call then
          match idleReason tool_call with
          | .error e => .raised e
          | .ok reason =>
            match callTool w stB "message_notify_user"
                (notifyText ("タスクが完了しました: " ++ reason)) false with
            | (.error e, _) => .raised e
            | (.ok _, stC) =>
              let stD := report_progress w stC elapsed true
              .brk { stD with isRunning := false }
        else
          .next (dispatchStep w stB tool_call)

/-- The `while self.is_running and iteration_count < max_iter` loop: `fuel`
is `max_iter - iteration_count`, `ic` the current `iteration_count`. -/
def agent_loop_go (w : World) : Nat → Nat → AgentState → Except String AgentState
  | 0, _, st => .ok st
  | Nat.succ fuel, ic, st =>
    if st.isRunning then
      match loopIter w ic st with
      | .raised e => .error e
      | .brk st2 => .ok st2
      | .next st2 => agent_loop_go w fuel (ic + 1) st2
    else .ok st

/-- `Agent._agent_loop` (agent.py:135-214): the `while` loop followed by the
post-loop budget report (`if self.iterations >= max_iter`, with another
unguarded notification) and the final `self.is_running = False`. -/
def agent_loop (w : World) (st : AgentState) : Except String AgentState :=
  match agent_loop_go w w.cfg.max_iterations 0 st with
  | .error e => .error e
  | .ok st2 =>
    if w.cfg.max_iterations ≤ st2.iterations then
      match callTool w st2 "message_notify_user" (notifyText iterExceededText) false with
      | (.error e, _) => .error e
      | (.ok _, st3) =>
        let st4 := report_progress w st3 (w.elapsedAt st2.iterations) false
        .ok { st4 with isRunning := false }
    else .ok { st2 with isRunning := false }

/-- The run state at the end of the `Planning` phase of `Agent.start`
(agent.py:52-84): the user `Message` appended, the acceptance notification
sent (guarded), the plan obtained and its `Plan` event appended, and the
checklist written (guarded). -/
def startState (w : World) (user_input : String) (fs0 : FileSystem) : AgentState :=
  let st0 : AgentState :=
    { events := [Event.Message user_input], isRunning := true, iterations := 0,
      lastSummaryIteration := 0, fs := fs0,
      memory := { file_registry := [], savedVars := [] }, trace := [] }
  let st1 := (callTool w st0 "message_notify_user"
    (notifyText "リクエストを受け付けました。計画を立てて実行します。") false).2
  let st2 := { st1 with events := st1.events ++ [Event.Plan w.planResponse] }
  { st2 with fs := create_todo_from_plan w.planResponse st2.fs }

/-- `Agent.start` (agent.py:52-86): the `Planning` phase followed by the
agent loop. -/
def start (w : World) (user_input : String) (fs0 : FileSystem) :
    Except String AgentState :=
  agent_loop w (startState w user_input fs0)

/-- `Agent.stop` (agent.py:463-481): clear the running flag and send a stop
notification (guarded); a no-op when already stopped. -/
def stop (w : World) (st : AgentState) (elapsed : Nat) : AgentState :=
  if st.isRunning then
    let st1 := { st with isRunning := false }
    (callTool w st1 "message_notify_user"
      (notifyText ("ユーザーリクエストによりエージェントを停止しました。（実行時間: " ++
        formatTime elapsed ++ "）")) false).2
  else st

/-! ### Observables used by the claims -/

/-- A `_report_progress` call whose notification was actually delivered. -/
def isReport (c : Call) : Bool := c.viaReport && c.result.toBool

/-- The progress reports actually delivered through the notification
capability (`_report_progress` calls whose notification succeeded). -/
def progressReportCount (st : AgentState) : Nat :=
  (st.trace.filter isReport).length

/-- Number of dispatched actions recorded in the event log. -/
def actionCount (evs : List Event) : Nat :=
  (evs.filter (fun ev => match ev with | Event.Action _ _ => true | _ => false)).length

/-- Progress-report count of a finished run (`none` when the run raised). -/
def runReportCount (r : Except String AgentState) : Option Nat :=
  match r with
  | .ok st => some (progressReportCount st)
  | .error _ => none

/-- Dispatched-action count of a finished run (`none` when the run raised). -/
def runActionCount (r : Except String AgentState) : Option Nat :=
  match r with
  | .ok st => some (actionCount st.events)
  | .error _ => none

/-- The notification capability is registered and succeeds on every text
payload the agent sends it (the spec's "only guaranteed-available
capability"). -/
def notifyAvailable (w : World) : Prop :=
  ∀ text : String, ∃ r : String,
    w.registry.execute_tool "message_notify_user" (notifyText text) = Except.ok r

/-! ### Concrete worlds and states used as witnesses -/

def st_empty : AgentState :=
  { events := [], isRunning := true, iterations := 0, lastSummaryIteration := 0,
    fs := [], memory := ⟨[], []⟩, trace := [] }

def wC1 : World :=
  { registry := ⟨[]⟩,
    llmCall := fun _ =>
      Except.ok "```json\n\x7b\"name\": \"nosuch\", \"parameters\": \x7b\x7d\x7d\n```",
    summarizeLLM := fun _ => Except.ok "",
    elapsedAt := fun _ => 0, planResponse := "",
    cfg := ⟨3, 1800, 0⟩ }

def tcC1 : Json := Json.obj [("name", Json.str "nosuch"), ("parameters", Json.obj [])]

def wC3 : World :=
  { registry := ⟨[]⟩, llmCall := fun _ => Except.ok "",
    summarizeLLM := fun _ => Except.error "boom",
    elapsedAt := fun _ => 0, planResponse := "",
    cfg := ⟨5, 1800, 1⟩ }

def eventsC8 : List Event :=
  Event.ObservationError (Json.str "t") "x" :: List.replicate 10 (Event.Message "m")

def notifyOkTool : Tool := ⟨fun _ => Except.ok "ok", 0⟩

def echoTool : Tool := ⟨fun _ => Except.ok "done", 0⟩

def regNE : ToolRegistry := ⟨[("message_notify_user", notifyOkTool), ("echo", echoTool)]⟩

def idleResponse : String := "```json\n\x7b\"name\": \"idle\"\x7d\n```"

def echoResponse : String := "```json\n\x7b\"name\": \"echo\", \"parameters\": \x7b\x7d\x7d\n```"

def wC5 : World :=
  { registry := regNE, llmCall := fun _ => Except.ok idleResponse,
    summarizeLLM := fun _ => Except.ok "sum", elapsedAt := fun _ => 0,
    planResponse := "目標: t\n1. one",
    cfg := ⟨1, 1800, 30⟩ }

def wC6 : World :=
  { registry := ⟨[]⟩, llmCall := fun _ => Except.ok "no structured call here",
    summarizeLLM := fun _ => Except.ok "", elapsedAt := fun _ => 0,
    planResponse := "", cfg := ⟨3, 1800, 0⟩ }

def wC7 : World :=
  { registry := regNE, llmCall := fun _ => Except.ok echoResponse,
    summarizeLLM := fun _ => Except.ok "sum", elapsedAt := fun _ => 0,
    planResponse := "目標: t\n1. one",
    cfg := ⟨3, 1800, 30⟩ }

/-! ## Helper lemmas -/

theorem dropPre_append (p q : List Char) : dropPre p (p ++ q) = some q := by
  induction p with
  | nil => rfl
  | cons c cs ih => simp [dropPre, ih]

theorem numberedSteps_all_incomplete (lines : List String) :
    (numberedSteps lines).all (fun s => (dropPre "- [ ] ".data s.data).isSome) = true := by
  rw [List.all_eq_true]
  intro s hs
  unfold numberedSteps at hs
  rw [List.mem_filterMap] at hs
  obtain ⟨line, _, hline⟩ := hs
  cases hmatch : matchNumbered line with
  | none => rw [hmatch] at hline; exact absurd hline (by simp)
  | some nt =>
    rw [hmatch] at hline
    simp only [Option.some.injEq] at hline
    subst hline
    show (dropPre "- [ ] ".data ("- [ ] " ++ nt.1 ++ ". " ++ nt.2).data).isSome = true
    have : ("- [ ] " ++ nt.1 ++ ". " ++ nt.2).data
        = "- [ ] ".data ++ (nt.1.data ++ ". ".data ++ nt.2.data) := by
      simp [String.data_append, List.append_assoc]
    rw [this, dropPre_append]
    rfl

theorem fallbackSteps_all_incomplete (lines : List String) :
    (fallbackSteps lines).all (fun s => (dropPre "- [ ] ".data s.data).isSome) = true := by
  rw [List.all_eq_true]
  intro s hs
  unfold fallbackSteps at hs
  rw [List.mem_filterMap] at hs
  obtain ⟨line, _, hline⟩ := hs
  split at hline
  · simp only [Option.some.injEq] at hline
    subst hline
    show (dropPre "- [ ] ".data ("- [ ] " ++ pyStrip line).data).isSome = true
    rw [show ("- [ ] " ++ pyStrip line).data = "- [ ] ".data ++ (pyStrip line).data by
      simp [String.data_append]]
    rw [dropPre_append]
    rfl
  · exact absurd hline (by simp)

/-! ## C2 — checklist completion across re-synchronization -/

/-- C2: the claim says a re-synchronized checklist keeps completion marks for
item numbers that still appear.  Counterexample: the stored checklist has
item 2 marked complete (`- [x] 2. b`); re-synchronizing from a revised plan
that still lists item 2 produces a checklist in which item 2 is written
incomplete (`- [ ] 2. b`) and no complete mark survives anywhere. -/
theorem C2_counterexample :
    containsSub "- [x] 2. b".data
      "# タスクToDoリスト\n\n目標: g\n\n- [ ] 1. a\n- [x] 2. b\n- [ ] 3. c".data = true ∧
    fsRead
      (create_todo_from_plan "目標: g\n1. a\n2. b\n3. c\n4. d"
        [(todo_file_path, "# タスクToDoリスト\n\n目標: g\n\n- [ ] 1. a\n- [x] 2. b\n- [ ] 3. c")])
      todo_file_path
      = some "# タスクToDoリスト\n\n目標: g\n\n- [ ] 1. a\n- [ ] 2. b\n- [ ] 3. c\n- [ ] 4. d" ∧
    containsSub "- [x]".data
      "# タスクToDoリスト\n\n目標: g\n\n- [ ] 1. a\n- [ ] 2. b\n- [ ] 3. c\n- [ ] 4. d".data
      = false := by
  refine ⟨by decide, by decide, by decide⟩

/-- C2 (amended): re-synchronization rewrites the checklist from the plan
text alone — the previously stored checklist is never read, every extracted
item is written incomplete, and all previous completion marks are discarded. -/
theorem C2_amended (plan_text : String) (fs : FileSystem) :
    create_todo_from_plan plan_text fs
      = fsWrite fs todo_file_path (create_todo_content plan_text) ∧
    (todoSteps plan_text).all (fun s => (dropPre "- [ ] ".data s.data).isSome) = true := by
  refine ⟨rfl, ?_⟩
  unfold todoSteps
  split
  · exact fallbackSteps_all_incomplete _
  · exact numberedSteps_all_incomplete _

/-! ## C9 — a plan with zero extractable steps -/

/-- C9: the claim says a plan with zero extractable steps leaves the
previous checklist file untouched.  Counterexample: from the plan
`"# 見出し\n\n目標: x"` no step is extractable, yet the stored checklist
`"OLD"` is overwritten with a checklist containing no items. -/
theorem C9_counterexample :
    todoSteps "# 見出し\n\n目標: x" = [] ∧
    fsRead (create_todo_from_plan "# 見出し\n\n目標: x" [(todo_file_path, "OLD")]) todo_file_path
      = some "# タスクToDoリスト\n\n目標: x\n\n" := by
  refine ⟨by decide, by decide⟩

/-- C9 (amended): a plan with zero extractable steps still rewrites the
checklist file unconditionally, leaving only the header and the goal line —
the previous checklist content is cleared, not preserved. -/
theorem C9_amended (plan_text : String) (fs : FileSystem)
    (h : todoSteps plan_text = []) :
    create_todo_from_plan plan_text fs
      = fsWrite fs todo_file_path
          ("# タスクToDoリスト\n\n" ++ goalLineOf (pySplitLines plan_text)) := by
  unfold create_todo_from_plan create_todo_content
  rw [h]
  rw [show joinWith "\n" ([] : List String) = "" from rfl]
  rw [String.append_empty]

theorem C9_amended_witness :
    todoSteps "# 見出し\n\n目標: x" = [] ∧
    create_todo_from_plan "# 見出し\n\n目標: x" [(todo_file_path, "OLD")]
      = fsWrite [(todo_file_path, "OLD")] todo_file_path
          ("# タスクToDoリスト\n\n" ++ goalLineOf (pySplitLines "# 見出し\n\n目標: x")) :=
  ⟨by decide, C9_amended "# 見出し\n\n目標: x" [(todo_file_path, "OLD")] (by decide)⟩

/-! ## C4 — dispatch timeout -/

/-- C4: the claim says a capability running longer than the timeout bound
makes dispatch return a Timeout error outcome.  Counterexample: a capability
annotated with a 100-second duration, dispatched under a 1-second bound —
the specification's dispatcher would return `Timeout`, but the code's
`execute_tool` (which has no timeout machinery at all) returns the
capability's completed result. -/
theorem C4_counterexample :
    dispatch_spec ⟨[("sleepy", ⟨fun _ => Except.ok "done", 100⟩)]⟩ "sleepy" (Json.obj []) 1
      = Outcome.errorTimeout ∧
    ToolRegistry.execute_tool ⟨[("sleepy", ⟨fun _ => Except.ok "done", 100⟩)]⟩ "sleepy"
      (Json.obj []) = Except.ok "done" :=
  ⟨rfl, rfl⟩

/-- C4 (amended): `execute_tool` accepts no timeout bound and never produces
a timeout outcome: for every registered capability it returns exactly the
capability's own outcome, however long the capability runs
(`runSeconds` is ignored). -/
theorem C4_amended (reg : ToolRegistry) (name : String) (entry : String × Tool)
    (fields : List (String × Json))
    (hfind : reg.tools.find? (fun e => e.1 = name) = some entry) :
    ToolRegistry.execute_tool reg name (Json.obj fields) = entry.2.run (Json.obj fields) := by
  unfold ToolRegistry.execute_tool
  rw [hfind]

theorem C4_amended_witness :
    (ToolRegistry.tools ⟨[("sleepy", ⟨fun _ => Except.ok "done", 100⟩)]⟩).find?
        (fun e => e.1 = "sleepy") = some ("sleepy", ⟨fun _ => Except.ok "done", 100⟩) ∧
    ToolRegistry.execute_tool ⟨[("sleepy", ⟨fun _ => Except.ok "done", 100⟩)]⟩ "sleepy"
        (Json.obj [])
      = Tool.run ⟨fun _ => Except.ok "done", 100⟩ (Json.obj []) :=
  ⟨rfl, C4_amended ⟨[("sleepy", ⟨fun _ => Except.ok "done", 100⟩)]⟩ "sleepy"
    ("sleepy", ⟨fun _ => Except.ok "done", 100⟩) [] rfl⟩

/-! ## C10 — commitment to the fenced block -/

/-- C10: when the response contains a fenced ```` ```json ```` block, the
parser commits to it: if the fenced text does not parse to an object with a
`"name"` field, extraction returns no action — it never falls through to
the bare-brace rule. -/
theorem C10_fence_commitment (s : String) (g : List Char)
    (hf : scanFence s.data = some g)
    (hp : parseAndCheck (String.mk g) = none) :
    extract_tool_call s = none := by
  unfold extract_tool_call
  rw [hf]
  exact hp

/-- C10 witness: a response whose fenced block is invalid JSON while the
response as a whole is a bare object that would parse with a `"name"` field;
extraction still returns nothing. -/
theorem C10_fence_commitment_witness :
    scanFence "\x7b\"name\": \"a\", \"x\": \"```json \x7bbad\x7d ```\"\x7d".data
      = some "\x7bbad\x7d".data ∧
    parseAndCheck "\x7bbad\x7d" = none ∧
    bareTry "\x7b\"name\": \"a\", \"x\": \"```json \x7bbad\x7d ```\"\x7d".data
      = some "\x7b\"name\": \"a\", \"x\": \"```json \x7bbad\x7d ```\"\x7d".data ∧
    (parseAndCheck "\x7b\"name\": \"a\", \"x\": \"```json \x7bbad\x7d ```\"\x7d").isSome
      = true ∧
    extract_tool_call "\x7b\"name\": \"a\", \"x\": \"```json \x7bbad\x7d ```\"\x7d" = none :=
  ⟨rfl, rfl, rfl, rfl,
    C10_fence_commitment "\x7b\"name\": \"a\", \"x\": \"```json \x7bbad\x7d ```\"\x7d"
      "\x7bbad\x7d".data rfl rfl⟩

/-! ## Shape lemmas for the loop -/

theorem summarizeStep_ok_shape (w : World) (stA : AgentState) (ic1 : Nat) (stB : AgentState)
    (h : summarizeStep w stA ic1 = .ok stB) :
    stB.trace = stA.trace ∧ stB.isRunning = stA.isRunning ∧ stB.iterations = stA.iterations ∧
    stB.fs = stA.fs ∧ stB.memory = stA.memory := by
  unfold summarizeStep at h
  split at h
  · split at h
    · simp at h
    · simp only [Except.ok.injEq] at h
      subst h
      exact ⟨rfl, rfl, rfl, rfl, rfl⟩
  · simp only [Except.ok.injEq] at h
    subst h
    exact ⟨rfl, rfl, rfl, rfl, rfl⟩

theorem summarizeStep_small (w : World) (stA : AgentState) (ic1 : Nat)
    (h : stA.events.length < 10) :
    summarizeStep w stA ic1 = .ok stA ∨
    summarizeStep w stA ic1 = .ok { stA with lastSummaryIteration := ic1 } := by
  unfold summarizeStep
  split
  · unfold summarize_context
    rw [if_pos h]
    right
    rfl
  · left
    rfl

/-! ## C1 — capability exceptions are captured and the loop continues -/

/-- C1: in any iteration whose dispatched capability raises (including an
unregistered capability name), the exception is caught: the loop appends an
error Observation recording the message and continues with `is_running`
still true — the run is not terminated. -/
theorem C1_capability_failure_captured
    (w : World) (ic : Nat) (st0 stB : AgentState) (tc : Json) (e : String)
    (hrun : st0.isRunning = true)
    (htime : ¬ (w.cfg.max_time_seconds < w.elapsedAt ic))
    (hsum : summarizeStep w { st0 with iterations := ic + 1 } (ic + 1) = .ok stB)
    (hex : extract_tool_call (get_llm_response w (ic + 1)) = some tc)
    (hidle : toolCallIsIdle tc = false)
    (herr : w.registry.execute_tool (dispatchName tc)
        ((tc.getField "parameters").getD (Json.obj [])) = .error e) :
    loopIter w ic st0 = .next
      { stB with
        events := stB.events ++
          [Event.Action ((tc.getField "name").getD Json.null) tc,
           Event.ObservationError ((tc.getField "name").getD Json.null) e],
        trace := stB.trace ++
          [⟨dispatchName tc, (tc.getField "parameters").getD (Json.obj []),
            Except.error e, false⟩] } ∧
    stB.isRunning = true := by
  have hshape := summarizeStep_ok_shape _ _ _ _ hsum
  refine ⟨?_, hshape.2.1.trans hrun⟩
  simp only [loopIter]
  rw [if_neg htime, hsum]
  simp only [hex, hidle, Bool.false_eq_true, if_false, dispatchStep, callTool]
  rw [herr]
  simp [List.append_assoc]

theorem C1_capability_failure_captured_witness :
    loopIter wC1 0 st_empty = IterResult.next
      { st_empty with
        iterations := 1,
        events := [Event.Action (Json.str "nosuch") tcC1,
                   Event.ObservationError (Json.str "nosuch") "ツール nosuch は登録されていません"],
        trace := [⟨"nosuch", Json.obj [], Except.error "ツール nosuch は登録されていません", false⟩] } ∧
    AgentState.isRunning { st_empty with iterations := 1 } = true :=
  C1_capability_failure_captured wC1 0 st_empty { st_empty with iterations := 1 } tcC1
    "ツール nosuch は登録されていません" rfl (by decide) rfl rfl rfl rfl

/-! ## C3 — summarization failure -/

/-- C3: the claim says a failing summarization request is non-fatal.
Counterexample: a run whose event log has reached 10 events and whose
summarization model raises; the whole agent loop terminates with that
exception instead of skipping compaction and continuing. -/
theorem C3_counterexample :
    agent_loop wC3 { st_empty with events := List.replicate 10 (Event.Message "m") }
      = Except.error "boom" := rfl

/-- C3 (amended): when the summarization model call raises, the event log is
indeed left unmodified by the failed attempt (the exception occurs before
any mutation, so no `.ok` log is produced), but the exception is not caught:
`_summarize_context` is called outside any `try/except`, so the raise
propagates out of `_agent_loop` and terminates the run. -/
theorem C3_amended (w : World) (ic : Nat) (st : AgentState) (e : String)
    (hrun : st.isRunning = true)
    (htime : ¬ (w.cfg.max_time_seconds < w.elapsedAt ic))
    (hth : 0 < w.cfg.auto_summarize_threshold)
    (hcad : w.cfg.auto_summarize_threshold ≤ ic + 1 - st.lastSummaryIteration)
    (hsum : summarize_context w.summarizeLLM st.events = .error e) :
    loopIter w ic st = .raised e ∧
    ∀ fuel, agent_loop_go w (fuel + 1) ic st = .error e := by
  have hstep : summarizeStep w { st with iterations := ic + 1 } (ic + 1) = .error e := by
    unfold summarizeStep
    rw [if_pos ⟨hth, hcad⟩]
    dsimp only
    rw [hsum]
  have hiter : loopIter w ic st = .raised e := by
    simp only [loopIter]
    rw [if_neg htime, hstep]
  refine ⟨hiter, fun fuel => ?_⟩
  simp only [agent_loop_go, hrun, if_true, hiter]

theorem C3_amended_witness :
    loopIter wC3 0 { st_empty with events := List.replicate 10 (Event.Message "m") }
        = IterResult.raised "boom" ∧
    agent_loop_go wC3 1 0 { st_empty with events := List.replicate 10 (Event.Message "m") }
        = Except.error "boom" :=
  have h := C3_amended wC3 0 { st_empty with events := List.replicate 10 (Event.Message "m") }
    "boom" rfl (by decide) (by decide) (by decide) rfl
  ⟨h.1, h.2 0⟩

/-! ## C8 — compaction shape -/

/-- C8: with fewer than 10 events compaction leaves the log unchanged, and
with at least 10 events and only `content`-carrying events in the older
prefix it produces one `Summary` followed by the previous last 10 events.
But the code crashes on its own error-Observation shape: with 11 events
whose oldest is an error Observation (no `content` key), `_summarize_context`
raises `KeyError` from `str(ev["content"])` even though the summarization
model succeeds — the log is not compacted (and the exception propagates,
agent.py:163).  `_build_prompt` (agent.py:380-385) handles exactly this
event shape, so the omission in `_summarize_context` is a slip. -/
theorem C8_compaction_evaluation :
    10 ≤ eventsC8.length ∧
    summarize_context (fun _ => Except.ok "S") eventsC8 = Except.error "KeyError: content" ∧
    summarize_context (fun _ => Except.ok "S") (List.replicate 11 (Event.Message "m"))
      = Except.ok (Event.Summary "S" :: List.replicate 10 (Event.Message "m")) ∧
    summarize_context (fun _ => Except.ok "S") (List.replicate 9 (Event.Message "m"))
      = Except.ok (List.replicate 9 (Event.Message "m")) :=
  ⟨by decide, rfl, rfl, rfl⟩

/-! ## C6 — extraction fallback chain -/

/-- C6: extraction is a fenced-block-first, bare-brace-fallback chain — a
fence match is the text parsed; with no fence a bare `{...}` is parsed; and
when extraction yields nothing (no candidate text, or the chosen text does
not parse to an object with a `"name"` field), the iteration dispatches no
capability, appends an extraction-failure Observation, and the loop
continues in `Iterating` with the iteration consumed. -/
theorem C6_extraction_fallback :
    (∀ (s : String) (g : List Char), scanFence s.data = some g →
        extract_tool_call s = parseAndCheck (String.mk g)) ∧
    (∀ (s : String) (g : List Char), scanFence s.data = none → bareTry s.data = some g →
        extract_tool_call s = parseAndCheck (String.mk g)) ∧
    (∀ s : String, scanFence s.data = none → bareTry s.data = none →
        extract_tool_call s = none) ∧
    (∀ (w : World) (ic : Nat) (st0 stB : AgentState),
        st0.isRunning = true →
        ¬ (w.cfg.max_time_seconds < w.elapsedAt ic) →
        summarizeStep w { st0 with iterations := ic + 1 } (ic + 1) = .ok stB →
        extract_tool_call (get_llm_response w (ic + 1)) = none →
        loopIter w ic st0 = .next { stB with events :=
          stB.events ++ [Event.Observation none "ツール呼び出し抽出に失敗"] } ∧
        stB.trace = st0.trace ∧ stB.isRunning = true ∧ stB.iterations = ic + 1) := by
  refine ⟨?_, ?_, ?_, ?_⟩
  · intro s g h
    unfold extract_tool_call
    rw [h]
  · intro s g h1 h2
    unfold extract_tool_call
    rw [h1, h2]
  · intro s h1 h2
    unfold extract_tool_call
    rw [h1, h2]
  · intro w ic st0 stB hrun htime hsum hex
    have hshape := summarizeStep_ok_shape _ _ _ _ hsum
    refine ⟨?_, hshape.1, hshape.2.1.trans hrun, hshape.2.2.1⟩
    simp only [loopIter]
    rw [if_neg htime, hsum]
    simp only [hex]

theorem C6_extraction_fallback_witness :
    extract_tool_call "```json\n\x7b\"name\": \"t\"\x7d\n```"
      = parseAndCheck "\x7b\"name\": \"t\"\x7d" ∧
    extract_tool_call "no structured call here" = none ∧
    loopIter wC6 0 st_empty = IterResult.next
      { st_empty with
        iterations := 1,
        events := [Event.Observation none "ツール呼び出し抽出に失敗"] } :=
  ⟨C6_extraction_fallback.1 "```json\n\x7b\"name\": \"t\"\x7d\n```" "\x7b\"name\": \"t\"\x7d".data rfl,
   C6_extraction_fallback.2.2.1 "no structured call here" rfl rfl,
   (C6_extraction_fallback.2.2.2 wC6 0 st_empty { st_empty with iterations := 1 }
     rfl (by decide) rfl rfl).1⟩

/-! ## Counting lemmas for progress reports -/

theorem reportCount_callTool_false (w : World) (st : AgentState) (n : String) (p : Json) :
    progressReportCount (callTool w st n p false).2 = progressReportCount st := by
  simp [callTool, progressReportCount, List.filter_append, isReport]

theorem reportCount_report_progress (w : World) (st : AgentState) (el : Nat) (b : Bool)
    (hN : notifyAvailable w) :
    progressReportCount (report_progress w st el b) = progressReportCount st + 1 := by
  obtain ⟨r, hr⟩ := hN (report_progress_message st el b)
  simp [report_progress, callTool, progressReportCount, List.filter_append, isReport, hr,
    Except.toBool]

theorem handle_special_shape (w : World) (st : AgentState) (tc : Json) (r : String) :
    (handle_special_tool_results w st tc r).events = st.events ∧
    (handle_special_tool_results w st tc r).iterations = st.iterations ∧
    (handle_special_tool_results w st tc r).isRunning = st.isRunning ∧
    progressReportCount (handle_special_tool_results w st tc r) = progressReportCount st := by
  simp only [handle_special_tool_results]
  split
  · split
    · exact ⟨rfl, rfl, rfl, rfl⟩
    · exact ⟨rfl, rfl, rfl, rfl⟩
  · split
    · split
      · split
        · exact ⟨rfl, rfl, rfl, reportCount_callTool_false _ _ _ _⟩
        · exact ⟨rfl, rfl, rfl, rfl⟩
      · exact ⟨rfl, rfl, rfl, rfl⟩
    · exact ⟨rfl, rfl, rfl, rfl⟩

theorem handle_special_events (w : World) (st : AgentState) (tc : Json) (r : String) :
    (handle_special_tool_results w st tc r).events = st.events :=
  (handle_special_shape w st tc r).1

theorem handle_special_iterations (w : World) (st : AgentState) (tc : Json) (r : String) :
    (handle_special_tool_results w st tc r).iterations = st.iterations :=
  (handle_special_shape w st tc r).2.1

theorem handle_special_isRunning (w : World) (st : AgentState) (tc : Json) (r : String) :
    (handle_special_tool_results w st tc r).isRunning = st.isRunning :=
  (handle_special_shape w st tc r).2.2.1

theorem reportCount_handle_special (w : World) (st : AgentState) (tc : Json) (r : String) :
    progressReportCount (handle_special_tool_results w st tc r) = progressReportCount st :=
  (handle_special_shape w st tc r).2.2.2

/-- The dispatch segment never stops the run, never touches the iteration
counter, and emits no progress report (its only possible notification, the
periodic one from `_handle_special_tool_results`, is not a report). -/
theorem dispatchStep_shape (w : World) (stB : AgentState) (tc : Json) :
    (dispatchStep w stB tc).isRunning = stB.isRunning ∧
    (dispatchStep w stB tc).iterations = stB.iterations ∧
    progressReportCount (dispatchStep w stB tc) = progressReportCount stB := by
  unfold dispatchStep
  rcases hE : w.registry.execute_tool (dispatchName tc)
      ((tc.getField "parameters").getD (Json.obj [])) with e | r
  · simp only [callTool, hE]
    simp [progressReportCount, List.filter_append, isReport]
  · simp only [callTool, hE]
    refine ⟨?_, ?_, ?_⟩
    · rw [handle_special_isRunning]
    · rw [handle_special_iterations]
    · rw [reportCount_handle_special]
      simp [progressReportCount, List.filter_append, isReport]

/-- A `.next` outcome of one loop pass: the run is still in `Iterating`, the
iteration was consumed, and no progress report was emitted. -/
theorem loopIter_next_shape (w : World) (ic : Nat) (st st2 : AgentState)
    (h : loopIter w ic st = .next st2) :
    st2.isRunning = st.isRunning ∧ st2.iterations = ic + 1 ∧
    progressReportCount st2 = progressReportCount st := by
  simp only [loopIter] at h
  split at h
  · split at h <;> simp at h
  · split at h
    · simp at h
    · rename_i stB hsumeq
      have hs := summarizeStep_ok_shape _ _ _ _ hsumeq
      split at h
      · simp only [IterResult.next.injEq] at h
        subst h
        refine ⟨hs.2.1, hs.2.2.1, ?_⟩
        show progressReportCount stB = progressReportCount st
        unfold progressReportCount
        rw [hs.1]
      · split at h
        · split at h
          · simp at h
          · split at h <;> simp at h
        · rename_i tc hexq hidl
          simp only [IterResult.next.injEq] at h
          subst h
          have hd := dispatchStep_shape w stB tc
          refine ⟨hd.1.trans hs.2.1, hd.2.1.trans hs.2.2.1, ?_⟩
          rw [hd.2.2]
          show progressReportCount stB = progressReportCount st
          unfold progressReportCount
          rw [hs.1]

/-- A `.brk` outcome of one loop pass: the run has left `Iterating` and
exactly one progress report was emitted on the way out (the wall-clock
branch keeps the iteration counter; the idle branch has consumed the
iteration). -/
theorem set_isRunning_iterations (st : AgentState) (b : Bool) :
    AgentState.iterations { st with isRunning := b } = st.iterations := rfl

theorem reportCount_set_isRunning (st : AgentState) (b : Bool) :
    progressReportCount { st with isRunning := b } = progressReportCount st := rfl

theorem report_progress_iterations (w : World) (st : AgentState) (el : Nat) (b : Bool) :
    (report_progress w st el b).iterations = st.iterations := rfl

theorem callTool_snd_iterations (w : World) (st : AgentState) (n : String) (p : Json)
    (vr : Bool) : (callTool w st n p vr).2.iterations = st.iterations := rfl

/-- A `.brk` outcome of one loop pass: the run has left `Iterating` and
exactly one progress report was emitted on the way out (the wall-clock
branch keeps the iteration counter; the idle branch has consumed the
iteration). -/
theorem loopIter_brk_shape (w : World) (ic : Nat) (st st2 : AgentState)
    (hN : notifyAvailable w)
    (h : loopIter w ic st = .brk st2) :
    st2.isRunning = false ∧ (st2.iterations = st.iterations ∨ st2.iterations = ic + 1) ∧
    progressReportCount st2 = progressReportCount st + 1 := by
  simp only [loopIter] at h
  split at h
  · split at h
    · simp at h
    · rename_i r st1 hcall
      have hD := congrArg Prod.snd hcall
      dsimp only at hD
      simp only [IterResult.brk.injEq] at h
      subst h
      refine ⟨rfl, Or.inl ?_, ?_⟩
      · rw [set_isRunning_iterations, report_progress_iterations, ← hD,
          callTool_snd_iterations]
      · rw [reportCount_set_isRunning, reportCount_report_progress _ _ _ _ hN,
          ← hD, reportCount_callTool_false]
  · split at h
    · simp at h
    · rename_i stB hsumeq
      have hs := summarizeStep_ok_shape _ _ _ _ hsumeq
      have hsIter : stB.iterations = ic + 1 := hs.2.2.1
      have hsCount : progressReportCount stB = progressReportCount st := by
        unfold progressReportCount
        rw [hs.1]
      split at h
      · simp at h
      · split at h
        · split at h
          · simp at h
          · split at h
            · simp at h
            · rename_i stC hcall
              have hD := congrArg Prod.snd hcall
              dsimp only at hD
              simp only [IterResult.brk.injEq] at h
              subst h
              refine ⟨rfl, Or.inr ?_, ?_⟩
              · rw [set_isRunning_iterations, report_progress_iterations, ← hD,
                  callTool_snd_iterations, hsIter]
              · rw [reportCount_set_isRunning, reportCount_report_progress _ _ _ _ hN,
                  ← hD, reportCount_callTool_false, hsCount]
        · simp at h

/-- Progress reports across a full pass of the `while` loop, by induction on
the remaining iteration budget: either the budget was exhausted with the
run still live and no report emitted, or the loop broke out (time budget or
idle) having emitted exactly one report. -/
theorem agent_loop_go_reports (w : World) (hN : notifyAvailable w) :
    ∀ (fuel ic : Nat) (st st2 : AgentState),
      st.isRunning = true → st.iterations = ic →
      agent_loop_go w fuel ic st = .ok st2 →
      (st2.isRunning = true ∧ st2.iterations = ic + fuel ∧
        progressReportCount st2 = progressReportCount st) ∨
      (st2.isRunning = false ∧ st2.iterations ≤ ic + fuel ∧
        progressReportCount st2 = progressReportCount st + 1) := by
  intro fuel
  induction fuel with
  | zero =>
    intro ic st st2 hrun hit h
    simp only [agent_loop_go, Except.ok.injEq] at h
    subst h
    left
    exact ⟨hrun, by omega, rfl⟩
  | succ n ih =>
    intro ic st st2 hrun hit h
    simp only [agent_loop_go, hrun, if_true] at h
    cases hli : loopIter w ic st with
    | raised e =>
      rw [hli] at h
      simp at h
    | brk stb =>
      rw [hli] at h
      simp only [Except.ok.injEq] at h
      subst h
      obtain ⟨h1, h2, h3⟩ := loopIter_brk_shape w ic st stb hN hli
      right
      refine ⟨h1, ?_, h3⟩
      rcases h2 with he | he
      · rw [he, hit]
        omega
      · rw [he]
        omega
    | next stn =>
      rw [hli] at h
      obtain ⟨h1, h2, h3⟩ := loopIter_next_shape w ic st stn hli
      rcases ih (ic + 1) stn st2 (h1.trans hrun) h2 h with ⟨a, b, c⟩ | ⟨a, b, c⟩
      · left
        exact ⟨a, by omega, by rw [c, h3]⟩
      · right
        exact ⟨a, by omega, by rw [c, h3]⟩

theorem startState_isRunning (w : World) (u : String) (f : FileSystem) :
    (startState w u f).isRunning = true := rfl

theorem startState_iterations (w : World) (u : String) (f : FileSystem) :
    (startState w u f).iterations = 0 := rfl

theorem reportCount_startState (w : World) (u : String) (f : FileSystem) :
    progressReportCount (startState w u f) = 0 := by
  simp [startState, callTool, progressReportCount, isReport]

/-! ## C5 — one final progress report per terminal state -/

/-- C5: the claim says every run emits exactly one final progress report.
Counterexample: with `max_iterations = 1` and a model that selects `idle` on
the first iteration, the run emits the completion report and then — because
`self.iterations >= max_iter` also holds after the loop (agent.py:207) —
the budget-exceeded report as well: two progress reports, not one. -/
theorem C5_counterexample :
    runReportCount (start wC5 "go" []) = some 2 := rfl

/-- C5 (amended): a run that terminates from inside the loop (idle
completion, iteration budget, or wall-clock budget) emits at least one and
at most two final progress reports before stopping; two occur exactly when
idle completion lands on the final allowed iteration, which additionally
triggers the post-loop budget report. -/
theorem C5_amended (w : World) (u : String) (fs0 : FileSystem) (st : AgentState)
    (hN : notifyAvailable w)
    (h : start w u fs0 = .ok st) :
    1 ≤ progressReportCount st ∧ progressReportCount st ≤ 2 := by
  unfold start agent_loop at h
  cases hgo : agent_loop_go w w.cfg.max_iterations 0 (startState w u fs0) with
  | error e =>
    rw [hgo] at h
    simp at h
  | ok st2 =>
    rw [hgo] at h
    have hfacts := agent_loop_go_reports w hN w.cfg.max_iterations 0 (startState w u fs0) st2
      (startState_isRunning w u fs0) (startState_iterations w u fs0) hgo
    rw [reportCount_startState] at hfacts
    dsimp only at h
    split at h
    · rename_i hcond
      cases hcall : callTool w st2 "message_notify_user" (notifyText iterExceededText) false
        with
      | mk r st3 =>
      rw [hcall] at h
      cases r with
      | error e =>
        simp at h
      | ok rv =>
        have hD := congrArg Prod.snd hcall
        dsimp only at hD
        simp only [Except.ok.injEq] at h
        subst h
        rw [reportCount_set_isRunning, reportCount_report_progress _ _ _ _ hN, ← hD,
          reportCount_callTool_false]
        rcases hfacts with ⟨_, _, c⟩ | ⟨_, _, c⟩ <;> omega
    · rename_i hcond
      simp only [Except.ok.injEq] at h
      subst h
      rw [reportCount_set_isRunning]
      rcases hfacts with ⟨_, b, c⟩ | ⟨_, _, c⟩
      · omega
      · omega

theorem C5_amended_witness :
    1 ≤ (runReportCount (start wC5 "go" [])).getD 0 ∧
    (runReportCount (start wC5 "go" [])).getD 0 ≤ 2 := by
  have hok : (start wC5 "go" []).isOk = true := rfl
  cases h : start wC5 "go" [] with
  | error e =>
    rw [h] at hok
    simp [Except.isOk, Except.toBool] at hok
  | ok st =>
    have hb := C5_amended wC5 "go" [] st (fun t => ⟨"ok", rfl⟩) h
    simpa [runReportCount] using hb

/-! ## C7 — iteration budget enforcement -/

theorem report_progress_events (w : World) (st : AgentState) (el : Nat) (b : Bool) :
    (report_progress w st el b).events = st.events := rfl

theorem callTool_snd_events (w : World) (st : AgentState) (n : String) (p : Json)
    (vr : Bool) : (callTool w st n p vr).2.events = st.events := rfl

theorem set_isRunning_events (st : AgentState) (b : Bool) :
    AgentState.events { st with isRunning := b } = st.events := rfl

theorem dispatchStep_events_shape (w : World) (stB : AgentState) (tc : Json) :
    (dispatchStep w stB tc).events.length = stB.events.length + 2 ∧
    actionCount (dispatchStep w stB tc).events = actionCount stB.events + 1 := by
  unfold dispatchStep
  rcases hE : w.registry.execute_tool (dispatchName tc)
      ((tc.getField "parameters").getD (Json.obj [])) with e | r
  · simp only [callTool, hE]
    constructor
    · simp [List.length_append]
    · simp [actionCount, List.filter_append]
  · simp only [callTool, hE]
    rw [handle_special_events]
    constructor
    · simp [List.length_append]
    · simp [actionCount, List.filter_append]

/-- One successful non-idle iteration: the loop continues, the iteration is
consumed, exactly one Action (and its Observation) is appended, and no
progress report is emitted. -/
theorem loopIter_success_shape (w : World) (ic : Nat) (st : AgentState) (tc : Json)
    (hrun : st.isRunning = true)
    (htime : ¬ (w.cfg.max_time_seconds < w.elapsedAt ic))
    (hsmall : st.events.length < 10)
    (hex : extract_tool_call (get_llm_response w (ic + 1)) = some tc)
    (hidle : toolCallIsIdle tc = false) :
    ∃ st2, loopIter w ic st = .next st2 ∧
      st2.isRunning = true ∧ st2.iterations = ic + 1 ∧
      st2.events.length = st.events.length + 2 ∧
      actionCount st2.events = actionCount st.events + 1 ∧
      progressReportCount st2 = progressReportCount st := by
  have hsm := summarizeStep_small w { st with iterations := ic + 1 } (ic + 1) hsmall
  rcases hsm with hS | hS
  · refine ⟨dispatchStep w { st with iterations := ic + 1 } tc, ?_, ?_, ?_, ?_, ?_, ?_⟩
    · simp only [loopIter]
      rw [if_neg htime, hS]
      simp only [hex, hidle, Bool.false_eq_true, if_false]
    · rw [(dispatchStep_shape w _ tc).1]
      exact hrun
    · rw [(dispatchStep_shape w _ tc).2.1]
    · rw [(dispatchStep_events_shape w _ tc).1]
    · rw [(dispatchStep_events_shape w _ tc).2]
    · rw [(dispatchStep_shape w _ tc).2.2]
      rfl
  · refine ⟨dispatchStep w
        { { st with iterations := ic + 1 } with lastSummaryIteration := ic + 1 } tc,
      ?_, ?_, ?_, ?_, ?_, ?_⟩
    · simp only [loopIter]
      rw [if_neg htime, hS]
      simp only [hex, hidle, Bool.false_eq_true, if_false]
    · rw [(dispatchStep_shape w _ tc).1]
      exact hrun
    · rw [(dispatchStep_shape w _ tc).2.1]
    · rw [(dispatchStep_events_shape w _ tc).1]
    · rw [(dispatchStep_events_shape w _ tc).2]
    · rw [(dispatchStep_shape w _ tc).2.2]
      rfl

theorem set_trace_iterations (st : AgentState) (tr : List Call) :
    AgentState.iterations { st with trace := tr } = st.iterations := rfl

theorem set_trace_events (st : AgentState) (tr : List Call) :
    AgentState.events { st with trace := tr } = st.events := rfl

theorem reportCount_append_call (st : AgentState) (c : Call) (h : isReport c = false) :
    progressReportCount { st with trace := st.trace ++ [c] } = progressReportCount st := by
  simp [progressReportCount, List.filter_append, h]

theorem agent_loop_go_succ_next (w : World) (fuel ic : Nat) (st st' : AgentState)
    (hrun : st.isRunning = true)
    (h : loopIter w ic st = .next st') :
    agent_loop_go w (fuel + 1) ic st = agent_loop_go w fuel (ic + 1) st' := by
  simp only [agent_loop_go, hrun, if_true, h]

/-- C7: with `max_iterations = 3`, a model backend that on every tick
returns a valid non-idle action whose capability succeeds, and the
wall-clock budget never exceeded, the run dispatches exactly 3 actions,
exits `Iterating` by the iteration budget, and emits the budget-exceeded
notification plus exactly one progress report. -/
theorem C7_budget_enforcement (w : World) (u : String) (fs0 : FileSystem)
    (hM : w.cfg.max_iterations = 3)
    (hN : notifyAvailable w)
    (htime : ∀ k, ¬ (w.cfg.max_time_seconds < w.elapsedAt k))
    (hact : ∀ k, 1 ≤ k → k ≤ 3 → ∃ tc,
        extract_tool_call (get_llm_response w k) = some tc ∧
        toolCallIsIdle tc = false ∧
        (w.registry.execute_tool (dispatchName tc)
          ((tc.getField "parameters").getD (Json.obj []))).isOk = true) :
    ∃ st, start w u fs0 = .ok st ∧ st.iterations = 3 ∧
      actionCount st.events = 3 ∧ progressReportCount st = 1 ∧
      ∃ c ∈ st.trace, c.tool = "message_notify_user" ∧
        c.params = notifyText iterExceededText := by
  obtain ⟨tc1, he1, hi1, _⟩ := hact 1 (by omega) (by omega)
  obtain ⟨tc2, he2, hi2, _⟩ := hact 2 (by omega) (by omega)
  obtain ⟨tc3, he3, hi3, _⟩ := hact 3 (by omega) (by omega)
  have hrun0 : (startState w u fs0).isRunning = true := rfl
  have hit0 : (startState w u fs0).iterations = 0 := rfl
  have hlen0 : (startState w u fs0).events.length = 2 := rfl
  have hac0 : actionCount (startState w u fs0).events = 0 := rfl
  have hrc0 : progressReportCount (startState w u fs0) = 0 := reportCount_startState w u fs0
  obtain ⟨stA, hlA, hrA, hiA, hlenA, hacA, hrcA⟩ :=
    loopIter_success_shape w 0 (startState w u fs0) tc1 hrun0 (htime 0)
      (by omega) he1 hi1
  obtain ⟨stB, hlB, hrB, hiB, hlenB, hacB, hrcB⟩ :=
    loopIter_success_shape w 1 stA tc2 hrA (htime 1) (by omega) he2 hi2
  obtain ⟨stC, hlC, hrC, hiC, hlenC, hacC, hrcC⟩ :=
    loopIter_success_shape w 2 stB tc3 hrB (htime 2) (by omega) he3 hi3
  have e1 : agent_loop_go w 3 0 (startState w u fs0) = agent_loop_go w 2 1 stA :=
    agent_loop_go_succ_next w 2 0 _ _ hrun0 hlA
  have e2 : agent_loop_go w 2 1 stA = agent_loop_go w 1 2 stB :=
    agent_loop_go_succ_next w 1 1 _ _ hrA hlB
  have e3 : agent_loop_go w 1 2 stB = agent_loop_go w 0 3 stC :=
    agent_loop_go_succ_next w 0 2 _ _ hrB hlC
  have hgo : agent_loop_go w w.cfg.max_iterations 0 (startState w u fs0) = .ok stC := by
    rw [hM, e1, e2, e3]
    rfl
  obtain ⟨rN, hrN⟩ := hN iterExceededText
  have hfin : start w u fs0 = Except.ok
      { report_progress w
          { stC with trace := stC.trace ++
            [⟨"message_notify_user", notifyText iterExceededText, Except.ok rN, false⟩] }
          (w.elapsedAt stC.iterations) false
        with isRunning := false } := by
    show agent_loop w (startState w u fs0) = _
    unfold agent_loop
    rw [hgo]
    dsimp only
    rw [if_pos (by omega : w.cfg.max_iterations ≤ stC.iterations)]
    simp only [callTool, hrN]
  refine ⟨_, hfin, ?_, ?_, ?_, ?_⟩
  · rw [set_isRunning_iterations, report_progress_iterations, set_trace_iterations, hiC]
  · rw [set_isRunning_events, report_progress_events, set_trace_events]
    omega
  · rw [reportCount_set_isRunning, reportCount_report_progress _ _ _ _ hN,
      reportCount_append_call _ _ (by simp [isReport])]
    omega
  · refine ⟨⟨"message_notify_user", notifyText iterExceededText, Except.ok rN, false⟩,
      ?_, rfl, rfl⟩
    simp only [report_progress, callTool]
    simp [List.mem_append]

theorem C7_budget_enforcement_witness :
    runActionCount (start wC7 "go" []) = some 3 ∧
    runReportCount (start wC7 "go" []) = some 1 := by
  obtain ⟨st, hrun, hit, hac, hrc, -⟩ :=
    C7_budget_enforcement wC7 "go" [] rfl (fun t => ⟨"ok", rfl⟩)
      (fun k => Nat.not_lt.mpr (Nat.zero_le 1800))
      (fun k h1 h3 => ⟨Json.obj [("name", Json.str "echo"), ("parameters", Json.obj [])],
        rfl, rfl, rfl⟩)
  rw [hrun]
  simp [runActionCount, runReportCount, hac, hrc]

end ManusAgent
